import Mathlib

/-!
Shallow embedding of `src/app/app.c` (slushie/cdbg): a single-file C program
that repeatedly truncates a target file, writes an incrementing counter to it
and to standard output, and exits when a recognized termination signal
(SIGINT, SIGHUP, SIGTERM) has been observed by the loop's continuation check.

The embedding models:
  * the signal handler `interrupt_handler` (sets `caught_signal = sig`),
  * the per-cycle body of the `while (!caught_signal)` loop as a list of
    observable I/O events,
  * signal delivery between the loop's continuation checks as a schedule
    `sched : Nat → List Nat` giving the signals delivered during each cycle,
  * `main`'s argument check, loop, and final diagnostic.
-/

namespace Cdbg

/-- Signal number of SIGHUP on the target platform. -/
def SIGHUP : Nat := 1

/-- Signal number of SIGINT on the target platform. -/
def SIGINT : Nat := 2

/-- Signal number of SIGTERM on the target platform. -/
def SIGTERM : Nat := 15

/-- `EXIT_FAILURE` from stdlib.h. -/
def EXIT_FAILURE : Nat := 1

/-- `EXIT_SUCCESS` from stdlib.h (also the implicit return value of `main`
falling off its end, per C99 5.1.2.2.3). -/
def EXIT_SUCCESS : Nat := 0

/-- The signals for which `main` installs `interrupt_handler` via `signal(...)`:
SIGINT, SIGHUP, SIGTERM, in the order of the three `signal` calls. -/
def handledSignals : List Nat := [SIGINT, SIGHUP, SIGTERM]

/-- A signal is recognized iff a handler is installed for it. -/
def recognized (sig : Nat) : Bool := handledSignals.contains sig

/-- Initial value of the C global `static int caught_signal = 0`. -/
def caught_signal_init : Nat := 0

/-- The C handler `void interrupt_handler(int sig) \x7b caught_signal = sig; \x7d`:
given the delivered signal and the current flag value, it returns the new
flag value, unconditionally overwriting it with `sig`. -/
def interrupt_handler (sig : Nat) (_caught : Nat) : Nat := sig

/-- Deliver a list of signals to the process, in order, between two of the
loop's continuation checks.  A recognized signal invokes `interrupt_handler`;
an unrecognized one leaves the flag alone (its OS-default disposition is
outside this model).  Returns the resulting flag value. -/
def deliver (sigs : List Nat) (caught : Nat) : Nat :=
  sigs.foldl (fun acc s => if recognized s then interrupt_handler s acc else acc) caught

/-- Observable I/O events of the program.  A line-writing event's string
carries its trailing newline, exactly as produced by the `fprintf` format
strings of the source. -/
inductive Event where
  /-- `fopen(path, "w")`: open the file for writing, creating or truncating it. -/
  | fopenTrunc (path : String) : Event
  /-- `fprintf(stdout, "%d\n", state)`: write the string to standard output. -/
  | stdoutWrite (s : String) : Event
  /-- `fprintf(fp, "%d\n", state++)`: write the string to the open file. -/
  | fileWrite (s : String) : Event
  /-- `fflush(fp)`. -/
  | fflush : Event
  /-- `fclose(fp)`. -/
  | fclose : Event
  /-- `sleep(secs)`: suspend for the cadence period. -/
  | sleep (secs : Nat) : Event
  /-- `fprintf(stderr, ...)`: write the string to standard error. -/
  | stderrWrite (s : String) : Event
deriving DecidableEq, Repr

/-- The events of one loop-body iteration with counter value `n`, in the
source's statement order: open with truncation, write `n` to stdout, write
`n` to the file, flush, close, sleep one second.  (The `state++`
post-increment makes the file receive the pre-increment value `n`.) -/
def cycleEvents (path : String) (n : Nat) : List Event :=
  [Event.fopenTrunc path,
   Event.stdoutWrite (toString n ++ "\n"),
   Event.fileWrite (toString n ++ "\n"),
   Event.fflush,
   Event.fclose,
   Event.sleep 1]

/-- Outcome of one loop-body iteration when the success of `fopen` is made
explicit.  The source checks nothing: when `fopen` fails it passes the NULL
stream straight to `fprintf`. -/
inductive CycleResult where
  /-- `fopen` succeeded; the six events happen in order. -/
  | ok (events : List Event) : CycleResult
  /-- `fopen` returned NULL; the events before the undefined `fprintf(NULL, ...)`
  call happened, then the program dereferences the failed handle. -/
  | nullDeref (eventsBefore : List Event) : CycleResult
deriving DecidableEq, Repr

/-- One loop-body iteration of the source with the `fopen` outcome explicit:
`fp = fopen(argv[1], "w")` yields a valid stream iff `openOk`; the stdout
write does not use `fp` and happens either way; the first use of `fp` is
`fprintf(fp, "%d\n", state++)`, which on a NULL stream is undefined
behavior. -/
def cycleBody (path : String) (n : Nat) (openOk : Bool) : CycleResult :=
  if openOk then CycleResult.ok (cycleEvents path n)
  else CycleResult.nullDeref
    [Event.fopenTrunc path, Event.stdoutWrite (toString n ++ "\n")]

/-- Whether the iteration reached a use of an invalid (NULL) file handle. -/
def usesInvalidHandle : CycleResult → Bool
  | CycleResult.ok _ => false
  | CycleResult.nullDeref _ => true

/-- Result of running the `while (!caught_signal)` loop for a bounded number
of continuation checks (`fuel`).  `cycles` counts completed loop-body
iterations; `completed` is true iff the loop exited by observing a nonzero
flag within the given fuel. -/
structure LoopResult where
  events : List Event
  cycles : Nat
  finalCounter : Nat
  finalCaught : Nat
  completed : Bool
deriving DecidableEq, Repr

/-- The `while (!caught_signal)` loop, fuel-bounded.  `i` is the index of the
cycle about to run (used to look up the delivery schedule), `st` the counter
`state`, `caught` the current flag value.  The flag is consulted exactly once
per iteration, at the top; signals scheduled for cycle `i` are delivered
during that cycle's body and hence observed no earlier than the next check. -/
def runLoopAux (path : String) (sched : Nat → List Nat) :
    Nat → Nat → Nat → Nat → LoopResult
  | 0, _i, st, caught =>
      { events := [], cycles := 0, finalCounter := st, finalCaught := caught,
        completed := false }
  | fuel + 1, i, st, caught =>
      if caught ≠ 0 then
        { events := [], cycles := 0, finalCounter := st, finalCaught := caught,
          completed := true }
      else
        let r := runLoopAux path sched fuel (i + 1) (st + 1) (deliver (sched i) caught)
        { events := cycleEvents path st ++ r.events,
          cycles := r.cycles + 1,
          finalCounter := r.finalCounter,
          finalCaught := r.finalCaught,
          completed := r.completed }

/-- The loop as entered by `main`: counter `state = 0`, flag at its initial
value `caught_signal_init = 0`, starting from cycle 0. -/
def runLoop (path : String) (sched : Nat → List Nat) (fuel : Nat) : LoopResult :=
  runLoopAux path sched fuel 0 0 caught_signal_init

/-- The final diagnostic `fprintf(stderr, "killed by signal %d\n", caught_signal)`. -/
def shutdownLine (sig : Nat) : String :=
  "killed by signal " ++ toString sig ++ "\n"

/-- The usage diagnostic `fprintf(stderr, "usage: %s <file>\n", argv[0])`. -/
def usageLine (prog : String) : String :=
  "usage: " ++ prog ++ " <file>\n"

/-- Result of a (fuel-bounded) run of `main`: the emitted events and the exit
status, `none` while the process is still in the loop (fuel exhausted before
a signal was observed). -/
structure MainResult where
  events : List Event
  exitCode : Option Nat
deriving DecidableEq, Repr

/-- `main` of `src/app/app.c`: `prog` is `argv[0]`, `args` the positional
arguments `argv[1..]` (so `argc = 1 + args.length`).  With anything other
than exactly one positional argument it prints the usage line to stderr and
returns `EXIT_FAILURE`; otherwise it installs the handlers, runs the loop,
and after the loop exits prints the shutdown diagnostic to stderr and falls
off the end of `main` (exit status 0). -/
def main (prog : String) (args : List String) (sched : Nat → List Nat)
    (fuel : Nat) : MainResult :=
  match args with
  | [path] =>
      let r := runLoop path sched fuel
      if r.completed then
        { events := r.events ++ [Event.stderrWrite (shutdownLine r.finalCaught)],
          exitCode := some EXIT_SUCCESS }
      else
        { events := r.events, exitCode := none }
  | _ =>
      { events := [Event.stderrWrite (usageLine prog)],
        exitCode := some EXIT_FAILURE }

/-- Content of the target file (`none` = the file does not exist) after an
event is performed: `fopen(path, "w")` creates-or-truncates it to empty, a
file write appends to the open file, everything else leaves it unchanged. -/
def applyEvent (content : Option String) : Event → Option String
  | Event.fopenTrunc _ => some ""
  | Event.fileWrite s => content.map (fun t => t ++ s)
  | _ => content

/-- Content of the target file after a list of events, starting from `c`. -/
def fileContentAfter (c : Option String) (evs : List Event) : Option String :=
  evs.foldl applyEvent c

/-- The lines written to standard output by a list of events, in order. -/
def stdoutLines (evs : List Event) : List String :=
  evs.filterMap (fun e => match e with
    | Event.stdoutWrite s => some s
    | _ => none)

/-- The strings written to the target file by a list of events, in order. -/
def fileWrites (evs : List Event) : List String :=
  evs.filterMap (fun e => match e with
    | Event.fileWrite s => some s
    | _ => none)

/-- The lines written to standard error by a list of events, in order. -/
def stderrLines (evs : List Event) : List String :=
  evs.filterMap (fun e => match e with
    | Event.stderrWrite s => some s
    | _ => none)

/-- Flag value at the top of cycle `k`, for a run that starts with the flag
unset: fold the deliveries of cycles `0, …, k-1` into `caught_signal_init`. -/
def flagAt (sched : Nat → List Nat) : Nat → Nat
  | 0 => caught_signal_init
  | k + 1 => deliver (sched k) (flagAt sched k)

/-! ### Helper lemmas -/

/-- A recognized signal number is nonzero. -/
lemma recognized_ne_zero {s : Nat} (h : recognized s = true) : s ≠ 0 := by
  simp [recognized, handledSignals, SIGINT, SIGHUP, SIGTERM] at h
  rcases h with h | h | h <;> omega

/-- Unfolding `deliver` over a cons. -/
lemma deliver_cons (s : Nat) (sigs : List Nat) (c : Nat) :
    deliver (s :: sigs) c = deliver sigs (if recognized s then s else c) := by
  simp [deliver, interrupt_handler, List.foldl_cons]

/-- Once the flag is nonzero, no sequence of deliveries clears it. -/
lemma deliver_ne_zero {c : Nat} (sigs : List Nat) (h : c ≠ 0) :
    deliver sigs c ≠ 0 := by
  induction sigs generalizing c with
  | nil => simpa [deliver] using h
  | cons s rest ih =>
      rw [deliver_cons]
      by_cases hs : recognized s = true
      · simp only [hs, if_true]
        exact ih (recognized_ne_zero hs)
      · simp only [hs, if_false]
        exact ih h

/-- Deliveries preserve the invariant that the flag is either unset or holds
a recognized signal number. -/
lemma deliver_zero_or_recognized {c : Nat} (sigs : List Nat)
    (h : c = 0 ∨ recognized c = true) :
    deliver sigs c = 0 ∨ recognized (deliver sigs c) = true := by
  induction sigs generalizing c with
  | nil => simpa [deliver] using h
  | cons s rest ih =>
      rw [deliver_cons]
      by_cases hs : recognized s = true
      · simp only [hs, if_true]
        exact ih (Or.inr hs)
      · simp only [hs, if_false]
        exact ih h

/-- When every delivered signal is recognized and the list is nonempty, the
flag ends up holding the last delivered signal, regardless of its prior value. -/
lemma deliver_eq_getLast {sigs : List Nat} (c : Nat) (hne : sigs ≠ [])
    (hrec : ∀ s ∈ sigs, recognized s = true) :
    deliver sigs c = sigs.getLast hne := by
  induction sigs generalizing c with
  | nil => exact absurd rfl hne
  | cons s rest ih =>
      rw [deliver_cons, if_pos (hrec s (List.mem_cons_self s rest))]
      cases rest with
      | nil => simp [deliver, List.getLast]
      | cons t ts =>
          rw [List.getLast_cons (by simp)]
          exact ih s (by simp) (fun x hx => hrec x (List.mem_cons_of_mem s hx))

/-- Unfolding `runLoopAux` at nonzero fuel with the flag unset. -/
lemma runLoopAux_succ_zero (path : String) (sched : Nat → List Nat)
    (fuel i st : Nat) :
    runLoopAux path sched (fuel + 1) i st 0 =
      { events := cycleEvents path st ++
          (runLoopAux path sched fuel (i + 1) (st + 1) (deliver (sched i) 0)).events,
        cycles := (runLoopAux path sched fuel (i + 1) (st + 1) (deliver (sched i) 0)).cycles + 1,
        finalCounter :=
          (runLoopAux path sched fuel (i + 1) (st + 1) (deliver (sched i) 0)).finalCounter,
        finalCaught :=
          (runLoopAux path sched fuel (i + 1) (st + 1) (deliver (sched i) 0)).finalCaught,
        completed :=
          (runLoopAux path sched fuel (i + 1) (st + 1) (deliver (sched i) 0)).completed } := by
  simp [runLoopAux]

/-- Unfolding `runLoopAux` at nonzero fuel with the flag set: the loop exits
at once, running no further cycle. -/
lemma runLoopAux_succ_ne_zero (path : String) (sched : Nat → List Nat)
    (fuel i st c : Nat) (hc : c ≠ 0) :
    runLoopAux path sched (fuel + 1) i st c =
      { events := [], cycles := 0, finalCounter := st, finalCaught := c,
        completed := true } := by
  simp [runLoopAux, hc]

/-- Structure of a run: the events are exactly the concatenation of the
per-cycle blocks for counter values `st, st+1, …`, one block per completed
cycle, and the counter advances by exactly one per completed cycle. -/
lemma runLoopAux_structure (path : String) (sched : Nat → List Nat) :
    ∀ fuel i st c,
      (runLoopAux path sched fuel i st c).events =
        (List.range' st (runLoopAux path sched fuel i st c).cycles).flatMap
          (cycleEvents path) ∧
      (runLoopAux path sched fuel i st c).finalCounter =
        st + (runLoopAux path sched fuel i st c).cycles := by
  intro fuel
  induction fuel with
  | zero => intro i st c; simp [runLoopAux]
  | succ fuel ih =>
      intro i st c
      by_cases hc : c ≠ 0
      · simp [runLoopAux_succ_ne_zero path sched fuel i st c hc]
      · push_neg at hc
        subst hc
        rw [runLoopAux_succ_zero]
        obtain ⟨he, hn⟩ := ih (i + 1) (st + 1) (deliver (sched i) 0)
        refine ⟨?_, ?_⟩
        · dsimp only
          simp only [List.range'_succ, List.flatMap_cons]
          rw [he]
        · dsimp only
          rw [hn]; omega

/-- Number of cadence suspensions (`sleep` events) in a list of events. -/
def sleepCount (evs : List Event) : Nat :=
  (evs.filter (fun e => match e with
    | Event.sleep _ => true
    | _ => false)).length

/-- Stdout lines of a sequence of cycle blocks: one line per block, the
block's counter value. -/
lemma stdoutLines_flatMap (path : String) (ns : List Nat) :
    stdoutLines (ns.flatMap (cycleEvents path)) =
      ns.map (fun n => toString n ++ "\n") := by
  induction ns with
  | nil => rfl
  | cons n rest ih =>
      simp only [List.flatMap_cons, List.map_cons, stdoutLines,
        List.filterMap_append] at *
      rw [ih]; rfl

/-- File writes of a sequence of cycle blocks: one write per block, the
block's counter value. -/
lemma fileWrites_flatMap (path : String) (ns : List Nat) :
    fileWrites (ns.flatMap (cycleEvents path)) =
      ns.map (fun n => toString n ++ "\n") := by
  induction ns with
  | nil => rfl
  | cons n rest ih =>
      simp only [List.flatMap_cons, List.map_cons, fileWrites,
        List.filterMap_append] at *
      rw [ih]; rfl

/-- The loop body itself never writes to standard error. -/
lemma stderrLines_flatMap (path : String) (ns : List Nat) :
    stderrLines (ns.flatMap (cycleEvents path)) = [] := by
  induction ns with
  | nil => rfl
  | cons n rest ih =>
      simp only [List.flatMap_cons, stderrLines, List.filterMap_append] at *
      rw [ih]; rfl

/-- Each cycle block contains exactly one cadence suspension. -/
lemma sleepCount_flatMap (path : String) (ns : List Nat) :
    sleepCount (ns.flatMap (cycleEvents path)) = ns.length := by
  induction ns with
  | nil => rfl
  | cons n rest ih =>
      simp only [List.flatMap_cons, sleepCount, List.filter_append,
        List.length_append] at *
      rw [ih]
      simp [cycleEvents]
      omega

/-- If the loop exits (observes the flag set) and the flag started unset or
recognized, the flag it observed holds a recognized signal number. -/
lemma runLoopAux_completed_recognized (path : String) (sched : Nat → List Nat) :
    ∀ fuel i st c, (c = 0 ∨ recognized c = true) →
      (runLoopAux path sched fuel i st c).completed = true →
      recognized (runLoopAux path sched fuel i st c).finalCaught = true ∧
      (runLoopAux path sched fuel i st c).finalCaught ≠ 0 := by
  intro fuel
  induction fuel with
  | zero => intro i st c _ hcomp; simp [runLoopAux] at hcomp
  | succ fuel ih =>
      intro i st c hc hcomp
      by_cases hz : c ≠ 0
      · rw [runLoopAux_succ_ne_zero path sched fuel i st c hz]
        rcases hc with hc | hc
        · exact absurd hc hz
        · exact ⟨hc, hz⟩
      · push_neg at hz
        subst hz
        rw [runLoopAux_succ_zero] at hcomp ⊢
        dsimp only at hcomp ⊢
        exact ih (i + 1) (st + 1) (deliver (sched i) 0)
          (deliver_zero_or_recognized (sched i) (Or.inl rfl)) hcomp

/-- The flag history is monotone: unset at cycle `b` means unset at every
earlier cycle (once set, it is never cleared). -/
lemma flagAt_zero_mono (sched : Nat → List Nat) {a b : Nat} (hab : a ≤ b)
    (hb : flagAt sched b = 0) : flagAt sched a = 0 := by
  induction b with
  | zero =>
      have ha : a = 0 := Nat.le_zero.mp hab
      rw [ha]; exact hb
  | succ b ih =>
      rcases Nat.lt_or_ge a (b + 1) with h | h
      · refine ih (by omega) ?_
        by_contra hzb
        exact absurd hb (by simpa [flagAt] using deliver_ne_zero (sched b) hzb)
      · have : a = b + 1 := by omega
        rw [this]; exact hb

/-- If the flag is still unset at the top of cycle `j + n` and becomes set
during cycle `j + n`, then the loop started at cycle `j` (with the flag value
of cycle `j`) runs exactly `n + 1` further cycles and then exits, given at
least `n + 2` continuation checks of fuel. -/
lemma runLoopAux_exits (path : String) (sched : Nat → List Nat) :
    ∀ n j st fuel, n + 2 ≤ fuel → flagAt sched (j + n) = 0 →
      flagAt sched (j + n + 1) ≠ 0 →
      (runLoopAux path sched fuel j st (flagAt sched j)).cycles = n + 1 ∧
      (runLoopAux path sched fuel j st (flagAt sched j)).completed = true := by
  intro n
  induction n with
  | zero =>
      intro j st fuel hfuel hj hj1
      obtain ⟨f, rfl⟩ : ∃ f, fuel = f + 1 := ⟨fuel - 1, by omega⟩
      rw [Nat.add_zero] at hj
      rw [hj, runLoopAux_succ_zero]
      obtain ⟨g, rfl⟩ : ∃ g, f = g + 1 := ⟨f - 1, by omega⟩
      have hdel : deliver (sched j) 0 ≠ 0 := by
        have := hj1
        rw [Nat.add_zero] at this
        simpa [flagAt, hj] using this
      rw [runLoopAux_succ_ne_zero path sched g (j + 1) (st + 1) _ hdel]
      exact ⟨rfl, rfl⟩
  | succ n ih =>
      intro j st fuel hfuel hj hj1
      obtain ⟨f, rfl⟩ : ∃ f, fuel = f + 1 := ⟨fuel - 1, by omega⟩
      have hj0 : flagAt sched j = 0 :=
        flagAt_zero_mono sched (by omega) hj
      rw [hj0, runLoopAux_succ_zero]
      have hstep : deliver (sched j) 0 = flagAt sched (j + 1) := by
        simp [flagAt, hj0]
      have hrec := ih (j + 1) (st + 1) f (by omega)
        (by rw [show j + 1 + n = j + (n + 1) by omega]; exact hj)
        (by rw [show j + 1 + n + 1 = j + (n + 1) + 1 by omega]; exact hj1)
      rw [hstep, show flagAt sched (j + 1) =
        flagAt sched (j + 1) from rfl]
      dsimp only
      rw [hstep] at *
      exact ⟨by rw [hrec.1], hrec.2⟩

/-- Events and counter of the full loop as entered by `main`: the event trace
is exactly one six-event block per completed cycle, for counter values
`0, 1, …, cycles - 1`, and the final counter equals the number of completed
cycles. -/
lemma runLoop_structure (path : String) (sched : Nat → List Nat) (fuel : Nat) :
    (runLoop path sched fuel).events =
      (List.range (runLoop path sched fuel).cycles).flatMap (cycleEvents path) ∧
    (runLoop path sched fuel).finalCounter = (runLoop path sched fuel).cycles := by
  obtain ⟨he, hn⟩ := runLoopAux_structure path sched fuel 0 0 caught_signal_init
  constructor
  · rw [List.range_eq_range']
    exact he
  · simpa using hn

/-- The loop body never writes to standard error. -/
lemma runLoop_stderrLines (path : String) (sched : Nat → List Nat) (fuel : Nat) :
    stderrLines (runLoop path sched fuel).events = [] := by
  rw [(runLoop_structure path sched fuel).1, stderrLines_flatMap]

/-- A C object declaration, reduced to the qualifiers that matter for
signal-handler visibility. -/
structure CVarDecl where
  name : String
  baseType : String
  isVolatile : Bool
  isSigAtomicT : Bool
  isAtomic : Bool
deriving DecidableEq, Repr

/-- The declaration `static int caught_signal = 0;` of src/app/app.c: base
type `int`, not `volatile`-qualified, not of type `sig_atomic_t`, not
`_Atomic`. -/
def caught_signal_decl : CVarDecl :=
  { name := "caught_signal", baseType := "int",
    isVolatile := false, isSigAtomicT := false, isAtomic := false }

/-- Modelled from the spec: "ShutdownSignal must be written and read with a
memory model appropriate for cross-context visibility (e.g., an atomic or
signal-safe flag)" — a declaration qualifies iff it is an atomic, or a
signal-safe flag in the C sense, i.e. a `volatile`-qualified object of type
`sig_atomic_t`. -/
def specSignalSafeFlag (d : CVarDecl) : Bool :=
  d.isAtomic || (d.isVolatile && d.isSigAtomicT)

/-! ### The claims -/

/-- C1: when a recognized termination signal has been observed by the loop
(the loop completed by seeing the flag set), the process exits with success
status, exactly one line is written to standard error, and that line is the
shutdown diagnostic naming the recognized signal that was recorded in the
flag. -/
theorem C1_shutdown_diagnostic (prog path : String) (sched : Nat → List Nat)
    (fuel : Nat) (h : (runLoop path sched fuel).completed = true) :
    (main prog [path] sched fuel).exitCode = some EXIT_SUCCESS ∧
    stderrLines (main prog [path] sched fuel).events =
      [shutdownLine (runLoop path sched fuel).finalCaught] ∧
    recognized (runLoop path sched fuel).finalCaught = true := by
  have hrec := runLoopAux_completed_recognized path sched fuel 0 0
    caught_signal_init (Or.inl rfl) h
  have hmain : main prog [path] sched fuel =
      { events := (runLoop path sched fuel).events ++
          [Event.stderrWrite (shutdownLine (runLoop path sched fuel).finalCaught)],
        exitCode := some EXIT_SUCCESS } := by
    simp [main, h]
  refine ⟨by rw [hmain], ?_, hrec.1⟩
  rw [hmain]
  dsimp only
  rw [show stderrLines ((runLoop path sched fuel).events ++
      [Event.stderrWrite (shutdownLine (runLoop path sched fuel).finalCaught)]) =
      stderrLines (runLoop path sched fuel).events ++
        [shutdownLine (runLoop path sched fuel).finalCaught] from
    List.filterMap_append _ _ _]
  rw [runLoop_stderrLines]
  rfl

/-- Delivery schedule for witnesses: SIGINT is delivered during every cycle. -/
def intSched : Nat → List Nat := fun _ => [SIGINT]

/-- Delivery schedule for witnesses: no signal is ever delivered. -/
def noSignals : Nat → List Nat := fun _ => []

/-- Witness for C1 at a concrete input: two checks of fuel, SIGINT delivered
during cycle 0. -/
theorem C1_witness :
    (runLoop "state.txt" intSched 2).completed = true ∧
    ((main "cdbg" ["state.txt"] intSched 2).exitCode = some EXIT_SUCCESS ∧
     stderrLines (main "cdbg" ["state.txt"] intSched 2).events =
       [shutdownLine (runLoop "state.txt" intSched 2).finalCaught] ∧
     recognized (runLoop "state.txt" intSched 2).finalCaught = true) :=
  ⟨by decide, C1_shutdown_diagnostic "cdbg" "state.txt" intSched 2 (by decide)⟩

/-- C2: in every (fuel-bounded) run, the sequence of lines written to
standard output and the sequence of strings written to the target file are
both exactly `"0\n", "1\n", …`, one per completed cycle — zero-based,
gapless, monotonic — and the counter, started at 0, has been incremented by
exactly one per completed cycle and never reset. -/
theorem C2_counter_sequence (path : String) (sched : Nat → List Nat)
    (fuel : Nat) :
    stdoutLines (runLoop path sched fuel).events =
      (List.range (runLoop path sched fuel).cycles).map
        (fun n => toString n ++ "\n") ∧
    fileWrites (runLoop path sched fuel).events =
      (List.range (runLoop path sched fuel).cycles).map
        (fun n => toString n ++ "\n") ∧
    (runLoop path sched fuel).finalCounter = (runLoop path sched fuel).cycles := by
  obtain ⟨he, hn⟩ := runLoop_structure path sched fuel
  exact ⟨by rw [he, stdoutLines_flatMap], by rw [he, fileWrites_flatMap], hn⟩

/-- C3: whatever the file contained before (`c`, including "absent"), after
the block of cycle `n` it contains exactly the single line `n\n` — the
open-with-truncation discards all history — and consequently after the
blocks of cycles `0, …, n` the file contains exactly `n\n`. -/
theorem C3_file_content (path : String) :
    (∀ (c : Option String) (n : Nat),
        fileContentAfter c (cycleEvents path n) = some (toString n ++ "\n")) ∧
    (∀ n : Nat,
        fileContentAfter none ((List.range (n + 1)).flatMap (cycleEvents path)) =
          some (toString n ++ "\n")) := by
  have hcycle : ∀ (c : Option String) (n : Nat),
      fileContentAfter c (cycleEvents path n) = some (toString n ++ "\n") := by
    intro c n
    show some (("" : String) ++ (toString n ++ "\n")) = some (toString n ++ "\n")
    rw [String.empty_append]
  refine ⟨hcycle, ?_⟩
  intro n
  induction n with
  | zero => simpa using hcycle none 0
  | succ n ih =>
      rw [List.range_succ, List.flatMap_append, fileContentAfter,
        List.foldl_append]
      exact hcycle _ (n + 1)

/-- Counterexample to C4 as stated: after SIGINT and then SIGHUP are
delivered, the flag holds SIGHUP, not the first-arriving SIGINT — the
handler sets the flag on every delivery, so the flag is not "set at most
once by whichever signal arrives first". -/
theorem C4_counterexample :
    interrupt_handler SIGINT caught_signal_init = SIGINT ∧
    interrupt_handler SIGHUP (interrupt_handler SIGINT caught_signal_init) =
      SIGHUP ∧
    SIGHUP ≠ SIGINT := by decide

/-- C4 (amended): the flag starts unset (0); every handler invocation
overwrites it with the delivered signal's number (so later recognized
signals update it — last writer wins); once nonzero it can never return to
0; and starting from unset-or-recognized it always remains unset or holds a
recognized signal number. -/
theorem C4_amended_flag_invariant :
    caught_signal_init = 0 ∧
    (∀ sig c : Nat, interrupt_handler sig c = sig) ∧
    (∀ (sigs : List Nat) (c : Nat), c ≠ 0 → deliver sigs c ≠ 0) ∧
    (∀ (sigs : List Nat) (c : Nat), c = 0 ∨ recognized c = true →
      deliver sigs c = 0 ∨ recognized (deliver sigs c) = true) :=
  ⟨rfl, fun _ _ => rfl, fun sigs _ h => deliver_ne_zero sigs h,
    fun sigs _ h => deliver_zero_or_recognized sigs h⟩

/-- Witness for C4 (amended) at concrete inputs: a set flag survives a
further delivery, and the unset flag stays unset-or-recognized. -/
theorem C4_witness :
    (SIGTERM ≠ 0 ∧ deliver [SIGINT] SIGTERM ≠ 0) ∧
    ((caught_signal_init = 0 ∨ recognized caught_signal_init = true) ∧
      (deliver [SIGHUP] caught_signal_init = 0 ∨
        recognized (deliver [SIGHUP] caught_signal_init) = true)) :=
  ⟨⟨by decide, C4_amended_flag_invariant.2.2.1 [SIGINT] SIGTERM (by decide)⟩,
   ⟨Or.inl rfl,
    C4_amended_flag_invariant.2.2.2 [SIGHUP] caught_signal_init (Or.inl rfl)⟩⟩

/-- C5: with any number of positional arguments other than one, `main`
writes exactly the usage line to standard error, exits with failure status,
enters no cycle, touches no file (any prior content is unchanged, an absent
file is not created), and writes nothing to standard output. -/
theorem C5_usage_error (prog : String) (args : List String)
    (sched : Nat → List Nat) (fuel : Nat) (h : args.length ≠ 1) :
    main prog args sched fuel =
      { events := [Event.stderrWrite (usageLine prog)],
        exitCode := some EXIT_FAILURE } ∧
    (∀ c : Option String,
        fileContentAfter c (main prog args sched fuel).events = c) ∧
    stdoutLines (main prog args sched fuel).events = [] := by
  match args with
  | [] => exact ⟨rfl, fun _ => rfl, rfl⟩
  | [a] => exact absurd rfl h
  | a :: b :: t => exact ⟨rfl, fun _ => rfl, rfl⟩

/-- Witness for C5 at a concrete input: zero positional arguments. -/
theorem C5_witness :
    (([] : List String).length ≠ 1) ∧
    main "cdbg" [] noSignals 0 =
      { events := [Event.stderrWrite (usageLine "cdbg")],
        exitCode := some EXIT_FAILURE } :=
  ⟨by decide, (C5_usage_error "cdbg" [] noSignals 0 (by decide)).1⟩

/-- C6: each cycle's block is exactly open-with-truncation, stdout write,
file write, flush, close, one-second suspend, in that order; every run is a
concatenation of such complete blocks with the counter advancing by exactly
one per block; and the flag is consulted only at the top of the loop: when a
cycle starts with the flag unset, the cycle runs to completion no matter
which signals its schedule delivers mid-cycle. -/
theorem C6_cycle_order (path : String) (sched : Nat → List Nat) :
    (∀ n : Nat, cycleEvents path n =
      [Event.fopenTrunc path, Event.stdoutWrite (toString n ++ "\n"),
       Event.fileWrite (toString n ++ "\n"), Event.fflush, Event.fclose,
       Event.sleep 1]) ∧
    (∀ fuel : Nat,
      (runLoop path sched fuel).events =
        (List.range (runLoop path sched fuel).cycles).flatMap
          (cycleEvents path) ∧
      (runLoop path sched fuel).finalCounter =
        (runLoop path sched fuel).cycles) ∧
    (∀ fuel i st : Nat, 1 ≤ fuel →
      1 ≤ (runLoopAux path sched fuel i st 0).cycles) := by
  refine ⟨fun _ => rfl, fun fuel => runLoop_structure path sched fuel, ?_⟩
  intro fuel i st hf
  obtain ⟨f, rfl⟩ : ∃ f, fuel = f + 1 := ⟨fuel - 1, by omega⟩
  rw [runLoopAux_succ_zero]
  dsimp only
  omega

/-- Witness for C6 at a concrete input: with one check of fuel and SIGINT
delivered mid-cycle, the started cycle still completes. -/
theorem C6_witness :
    (1 : Nat) ≤ 1 ∧ 1 ≤ (runLoopAux "state.txt" intSched 1 0 0 0).cycles :=
  ⟨by decide, (C6_cycle_order "state.txt" intSched).2.2 1 0 0 (by decide)⟩

/-- C7: if the flag is still unset at the top of cycle `i` and a recognized
signal is recorded during cycle `i`, then (given fuel for at least `i + 2`
continuation checks) the loop observes it at the very next check: it
completes exactly `i + 1` cycles and exits, having suspended for exactly
`i + 1` cadence periods in total — so at most one cadence period (the
remainder of cycle `i`, with its single one-second suspend) elapses between
the signal being recorded and the loop exiting. -/
theorem C7_prompt_shutdown (path : String) (sched : Nat → List Nat)
    (i fuel : Nat) (h0 : flagAt sched i = 0) (h1 : flagAt sched (i + 1) ≠ 0)
    (hfuel : i + 2 ≤ fuel) :
    (runLoop path sched fuel).completed = true ∧
    (runLoop path sched fuel).cycles = i + 1 ∧
    sleepCount (runLoop path sched fuel).events = i + 1 := by
  have h := runLoopAux_exits path sched i 0 0 fuel hfuel
    (by simpa using h0) (by simpa using h1)
  refine ⟨h.2, h.1, ?_⟩
  rw [(runLoop_structure path sched fuel).1, sleepCount_flatMap,
    List.length_range]
  exact h.1

/-- Witness for C7 at a concrete input: SIGINT recorded during cycle 0,
loop exits after exactly one cycle and one cadence suspend. -/
theorem C7_witness :
    (flagAt intSched 0 = 0 ∧ flagAt intSched 1 ≠ 0 ∧ 0 + 2 ≤ 2) ∧
    ((runLoop "state.txt" intSched 2).completed = true ∧
     (runLoop "state.txt" intSched 2).cycles = 0 + 1 ∧
     sleepCount (runLoop "state.txt" intSched 2).events = 0 + 1) :=
  ⟨⟨by decide, by decide, by decide⟩,
   C7_prompt_shutdown "state.txt" intSched 0 2 (by decide) (by decide)
     (by decide)⟩

/-- C8: the shutdown flag of the source is declared `static int` — neither
`volatile`, nor `sig_atomic_t`, nor `_Atomic` — so it does not satisfy the
spec's cross-context visibility requirement (an atomic or signal-safe flag
such as `volatile sig_atomic_t`). -/
theorem C8_flag_not_signal_safe :
    specSignalSafeFlag caught_signal_decl = false ∧
    caught_signal_decl.isVolatile = false ∧
    caught_signal_decl.isSigAtomicT = false ∧
    caught_signal_decl.isAtomic = false ∧
    caught_signal_decl.baseType = "int" :=
  ⟨rfl, rfl, rfl, rfl, rfl⟩

/-- C9: the loop body uses the stream returned by `fopen` with no failure
check: it avoids invalid-handle use exactly when the open succeeds, and when
the open fails it reaches the `fprintf(NULL, …)` dereference (after the
stdout write, which does not use the stream) instead of detecting the
failure. -/
theorem C9_unchecked_open (path : String) (n : Nat) :
    (∀ b : Bool, usesInvalidHandle (cycleBody path n b) = !b) ∧
    cycleBody path n true = CycleResult.ok (cycleEvents path n) ∧
    cycleBody path n false =
      CycleResult.nullDeref
        [Event.fopenTrunc path, Event.stdoutWrite (toString n ++ "\n")] := by
  refine ⟨fun b => ?_, rfl, rfl⟩
  cases b <;> rfl

/-- C10: when several recognized signals are delivered between two checks of
the flag, each delivery overwrites the flag, so it ends up holding the last
delivered signal (whatever its prior value), and the shutdown diagnostic
names that last signal. -/
theorem C10_last_signal_wins (sigs : List Nat) (hne : sigs ≠ [])
    (hrec : ∀ s ∈ sigs, recognized s = true) (c : Nat) :
    deliver sigs c = sigs.getLast hne ∧
    shutdownLine (deliver sigs c) =
      "killed by signal " ++ toString (sigs.getLast hne) ++ "\n" := by
  have h := deliver_eq_getLast c hne hrec
  exact ⟨h, by rw [shutdownLine, h]⟩

/-- Witness for C10 at a concrete input: SIGINT then SIGTERM delivered
before the next check leaves SIGTERM, the last one, in the flag. -/
theorem C10_witness :
    (([SIGINT, SIGTERM] : List Nat) ≠ []) ∧
    deliver [SIGINT, SIGTERM] caught_signal_init = SIGTERM := by
  refine ⟨by decide, ?_⟩
  have h := (C10_last_signal_wins [SIGINT, SIGTERM] (by decide) (by decide)
    caught_signal_init).1
  rw [h]
  rfl

end Cdbg
